import Mathlib

/-!
# Verification of `ipc::detail::waiter_helper` (cpp-ipc, src/libipc/waiter_helper.h)

A shallow embedding of the cross-process condition-variable protocol in
`waiter_helper.h`.  Each operation (`wait_if`, `notify`, `broadcast`,
`quit_waiting`, `clear_handshake`) is modelled as a pure Lean function on the
shared control state.  Results of the blocking collaborator primitives
(`sema_wait`, `sema_post`, `handshake_wait`, `handshake_post`) and the values
that concurrently-mutated atomic flags present to the loop inside `wait_if`
are supplied by an explicit environment, so one call's execution is a
deterministic function of (initial state, environment).  Every externally
visible primitive invocation and every lock transition is recorded in an
event trace, so statements such as "posts n tokens in a single `sema_post`
call" or "never unlocks `mtx` on this path" become statements about the
trace.

`default_timeout` is declared in `libipc/def.h`, which is outside the file
under study; all definitions are therefore parameterised by its value
`dt : Nat` (the spec describes it only as "a default bounded timeout").
-/

namespace waiter_helper

/-- Shared counters (`waiter_helper::wait_counter`): `waiting_` is the atomic
number of registered waiters, `counter_` the lock-protected snapshot consumed
by notifiers.  Both are C++ `long`, modelled as `Int`. -/
structure wait_counter where
  waiting_ : Int
  counter_ : Int
  deriving DecidableEq, Repr

/-- Shared flags (`waiter_helper::wait_flags`): three atomic booleans. -/
structure wait_flags where
  is_waiting_ : Bool
  is_closed_ : Bool
  need_dest_ : Bool
  deriving DecidableEq, Repr

/-- One externally visible action of a call: an invocation of a collaborator
primitive, or a transition of the shared control lock (`ctrl.get_lock()`)
or of the caller-held mutex `mtx`.  Each primitive event records the argument
passed and the boolean result the environment returned. -/
inductive Event where
  | semaWait (tm : Nat) (ok : Bool)
  | semaPost (n : Int) (ok : Bool)
  | hsWait (tm : Nat) (ok : Bool)
  | hsPost (n : Nat) (ok : Bool)
  | ctrlLock
  | ctrlUnlock
  | mtxUnlock
  | mtxLock
  deriving DecidableEq, Repr

/-- Is the event an invocation of `handshake_post`? -/
def Event.isHsPost : Event → Bool
  | .hsPost _ _ => true
  | _ => false

/-- Is the event an invocation of `sema_wait`? -/
def Event.isSemaWait : Event → Bool
  | .semaWait _ _ => true
  | _ => false

/-- Is the event an invocation of `sema_post`? -/
def Event.isSemaPost : Event → Bool
  | .semaPost _ _ => true
  | _ => false

/-- Is the event a transition of the caller-held mutex `mtx`? -/
def Event.isMtx : Event → Bool
  | .mtxUnlock => true
  | .mtxLock => true
  | _ => false

/-- Is the event a `handshake_wait` invocation with timeout `t`? -/
def Event.isHsWaitTm (t : Nat) : Event → Bool
  | .hsWait tm _ => tm == t
  | _ => false

/-- The effect on `waiting_` of the scope-guard body in `wait_if`:
a compare-and-swap retry loop that decrements only while the observed value
is strictly positive (`for (curr_wait = waiting_.load(); curr_wait > 0;)
if (compare_exchange_weak(curr_wait, curr_wait - 1)) break;`). -/
def decrementWaiting (w : Int) : Int :=
  if 0 < w then w - 1 else w

/-- The values the concurrently-mutated atomic flags present to one iteration
of `wait_if`'s blocking loop, together with the result of the `sema_wait`
performed in that iteration (if any):
`isWaiting`/`isClosed` are the two loads at the top of the loop body;
`needDest` is the prior value returned by `need_dest_.exchange(false)`;
`semaOk` is the result of the `sema_wait` call of this iteration;
`needDestAfter` is the value of `need_dest_.load` in the `do ... while`
condition. -/
structure LoopObs where
  isWaiting : Bool
  isClosed : Bool
  needDest : Bool
  semaOk : Bool
  needDestAfter : Bool
  deriving DecidableEq, Repr

/-- The blocking `do ... while (need_dest_.load)` loop of `wait_if`
(lines 52-68 of the source).  Consumes one observation per iteration and
returns the final value of `ret` together with the events the loop emitted;
`none` when the supplied observation list is exhausted before the loop exits
(model truncation).  Every branch of the loop body writes `need_dest_ := false`
(an explicit store in the first branch, the `exchange(false)` evaluated in the
condition of the other two), so the loop's own final write to `need_dest_` is
always `false` and need not be threaded. -/
def waitLoop (dt tm : Nat) : List LoopObs → Option (Bool × List Event)
  | [] => none
  | o :: rest =>
    if !o.isWaiting || o.isClosed then
      some (false, [])
    else if o.needDest then
      some (false, [Event.semaWait dt o.semaOk])
    else if o.needDestAfter then
      match waitLoop dt tm rest with
      | none => none
      | some (r, tr) => some (r, Event.semaWait tm o.semaOk :: tr)
    else
      some (o.semaOk, [Event.semaWait tm o.semaOk])

/-- Result of one `wait_if` call: the returned boolean, the control state as
updated by this call's own writes, and the event trace. -/
structure WaitIfOut where
  ret : Bool
  counter : wait_counter
  flags : wait_flags
  trace : List Event
  deriving DecidableEq, Repr

/-- `waiter_helper::wait_if(ctrl, mtx, pred, tm)` (source lines 27-74).
`pred` is the value the predicate evaluates to under the shared lock;
`obs` supplies the blocking loop's flag observations and `sema_wait` results;
`hsPostOk` the result of the final `handshake_post(1)`.  Returns `none` only
when `obs` is too short for the loop (model truncation). -/
def wait_if (dt : Nat) (c : wait_counter) (fl : wait_flags) (pred : Bool)
    (tm : Nat) (obs : List LoopObs) (hsPostOk : Bool) : Option WaitIfOut :=
  if fl.is_closed_ then
    some ⟨false, c, fl, []⟩
  else
    let c1 : wait_counter := { c with waiting_ := c.waiting_ + 1 }
    if !pred then
      some ⟨true, { c1 with waiting_ := decrementWaiting c1.waiting_ },
            { fl with is_waiting_ := false },
            [Event.ctrlLock, Event.ctrlUnlock]⟩
    else
      let c2 : wait_counter := { c1 with counter_ := c1.waiting_ }
      match waitLoop dt tm obs with
      | none => none
      | some (r, ltr) =>
        some ⟨hsPostOk && r,
              { c2 with waiting_ := decrementWaiting c2.waiting_ },
              { is_waiting_ := false, is_closed_ := fl.is_closed_,
                need_dest_ := false },
              Event.ctrlLock :: Event.ctrlUnlock :: Event.mtxUnlock :: ltr
                ++ [Event.hsPost 1 hsPostOk, Event.mtxLock]⟩

/-- `waiter_helper::clear_handshake(ctrl)` (source lines 77-79):
`while (handshake_wait(0)) ;`.  `drain` supplies the successive results of
the non-blocking `handshake_wait(0)` calls; returns the emitted events, or
`none` if the supplied results never contain a `false` (model truncation). -/
def clear_handshake : List Bool → Option (List Event)
  | [] => none
  | b :: rest =>
    if b then
      match clear_handshake rest with
      | none => none
      | some tr => some (Event.hsWait 0 true :: tr)
    else
      some [Event.hsWait 0 false]

/-- `waiter_helper::notify(ctrl)` (source lines 82-96).  `drain` supplies the
`clear_handshake` results, `semaPostOk` the result of `sema_post(1)`,
`hsWaitOk` the result of `handshake_wait(default_timeout)`.  In
`ret = ret && handshake_wait(default_timeout)` the `&&` short-circuits:
the `handshake_wait` call is made — and its event recorded — only when the
preceding `sema_post` succeeded. -/
def notify (dt : Nat) (c : wait_counter) (drain : List Bool)
    (semaPostOk hsWaitOk : Bool) : Option (Bool × wait_counter × List Event) :=
  if c.waiting_ == 0 then
    some (true, c, [])
  else
    match clear_handshake drain with
    | none => none
    | some dtr =>
      if 0 < c.counter_ then
        some (semaPostOk && hsWaitOk, { c with counter_ := c.counter_ - 1 },
              Event.ctrlLock :: dtr
                ++ Event.semaPost 1 semaPostOk
                  :: (if semaPostOk then [Event.hsWait dt hsWaitOk] else [])
                ++ [Event.ctrlUnlock])
      else
        some (true, c, Event.ctrlLock :: dtr ++ [Event.ctrlUnlock])

/-- The `do { counter_ -= 1; ret = ret && handshake_wait(tm); }
while (counter_ > 0)` loop of `broadcast` (source lines 110-113).
`hs i` is the result the environment returns for the `handshake_wait(tm)`
of the i-th iteration, counting from `i0`.  The `&&` short-circuits: the
`handshake_wait` call is made — and its event recorded — only while the
accumulated `ret` is still `true`; `counter_` is decremented every
iteration regardless.  Returns the final `ret`, the final value of
`counter_`, and the emitted events.  Runs at least once (do-while). -/
def bcastLoop (tm : Nat) (hs : Nat → Bool) (i0 : Nat) (c : Int) (ret : Bool) :
    Bool × Int × List Event :=
  let c1 := c - 1
  let r := ret && hs i0
  let ev : List Event := if ret then [Event.hsWait tm (hs i0)] else []
  if h : 0 < c1 then
    let (rr, cc, tr) := bcastLoop tm hs (i0 + 1) c1 r
    (rr, cc, ev ++ tr)
  else
    (r, c1, ev)
termination_by c.toNat
decreasing_by
  simp only [c1] at h ⊢
  omega

/-- `waiter_helper::broadcast(ctrl)` (source lines 99-117).  `drain` supplies
the `clear_handshake` results, `semaPostOk` the result of
`sema_post(counter_)`, `hs` the successive `handshake_wait` results of the
acknowledgment loop. -/
def broadcast (dt : Nat) (c : wait_counter) (drain : List Bool)
    (semaPostOk : Bool) (hs : Nat → Bool) :
    Option (Bool × wait_counter × List Event) :=
  if c.waiting_ == 0 then
    some (true, c, [])
  else
    match clear_handshake drain with
    | none => none
    | some dtr =>
      if 0 < c.counter_ then
        let tm := dt / c.counter_.toNat
        let (r, c1, tr) := bcastLoop tm hs 0 c.counter_ semaPostOk
        some (r, { waiting_ := 0, counter_ := c1 },
              Event.ctrlLock :: dtr
                ++ Event.semaPost c.counter_ semaPostOk :: tr
                ++ [Event.ctrlUnlock])
      else
        some (true, c, Event.ctrlLock :: dtr ++ [Event.ctrlUnlock])

/-- `waiter_helper::quit_waiting(ctrl)` (source lines 120-139).  Returns the
boolean result, the updated counters, the flags as updated by this call's own
writes, and the trace.  In `ret = ret && handshake_wait(default_timeout)`
the `&&` short-circuits: the `handshake_wait` call is made — and its event
recorded — only when `sema_post(counter_)` succeeded. -/
def quit_waiting (dt : Nat) (c : wait_counter) (fl : wait_flags)
    (drain : List Bool) (semaPostOk hsWaitOk : Bool) :
    Option (Bool × wait_counter × wait_flags × List Event) :=
  let fl1 : wait_flags := { fl with need_dest_ := true }
  let old := fl1.is_waiting_
  let fl2 : wait_flags := { fl1 with is_waiting_ := false }
  if !old then
    some (true, c, fl2, [])
  else if c.waiting_ == 0 then
    some (true, c, fl2, [])
  else
    match clear_handshake drain with
    | none => none
    | some dtr =>
      if 0 < c.counter_ then
        some (semaPostOk && hsWaitOk, { c with counter_ := c.counter_ - 1 },
              fl2,
              Event.ctrlLock :: dtr
                ++ Event.semaPost c.counter_ semaPostOk
                  :: (if semaPostOk then [Event.hsWait dt hsWaitOk] else [])
                ++ [Event.ctrlUnlock])
      else
        some (true, c, fl2, Event.ctrlLock :: dtr ++ [Event.ctrlUnlock])

/-! ## Helper lemmas -/

/-- A `sema_wait` event is not a mutex transition. -/
lemma isSemaWait_not_mtx (e : Event) (h : e.isSemaWait = true) : e.isMtx = false := by
  cases e <;> simp_all [Event.isSemaWait, Event.isMtx]

/-- A `sema_wait` event is not a `handshake_post`. -/
lemma isSemaWait_not_hsPost (e : Event) (h : e.isSemaWait = true) :
    e.isHsPost = false := by
  cases e <;> simp_all [Event.isSemaWait, Event.isHsPost]

/-- Every event the blocking loop of `wait_if` emits is a `sema_wait`
invocation. -/
lemma waitLoop_events (dt tm : Nat) :
    ∀ (obs : List LoopObs) (r : Bool) (tr : List Event),
      waitLoop dt tm obs = some (r, tr) → ∀ e ∈ tr, e.isSemaWait = true := by
  intro obs
  induction obs with
  | nil => intro r tr h; simp [waitLoop] at h
  | cons o rest ih =>
    intro r tr h
    simp only [waitLoop] at h
    split at h
    · rw [Option.some_inj, Prod.mk.injEq] at h
      obtain ⟨rfl, rfl⟩ := h
      intro e he
      simp at he
    · split at h
      · rw [Option.some_inj, Prod.mk.injEq] at h
        obtain ⟨rfl, rfl⟩ := h
        intro e he
        simp at he
        simp [he, Event.isSemaWait]
      · split at h
        · rcases hq : waitLoop dt tm rest with _ | ⟨r', tr'⟩
          · rw [hq] at h; exact absurd h (by simp)
          · rw [hq] at h
            simp only [Option.some_inj, Prod.mk.injEq] at h
            obtain ⟨rfl, rfl⟩ := h
            intro e he
            rcases List.mem_cons.mp he with he | he
            · simp [he, Event.isSemaWait]
            · exact ih r' tr' hq e he
        · rw [Option.some_inj, Prod.mk.injEq] at h
          obtain ⟨rfl, rfl⟩ := h
          intro e he
          simp at he
          simp [he, Event.isSemaWait]

/-- Closed-form value of `wait_if` on the closed fast path. -/
lemma wait_if_closed_eq (dt : Nat) (c : wait_counter) (fl : wait_flags)
    (pred : Bool) (tm : Nat) (obs : List LoopObs) (hsPostOk : Bool)
    (h : fl.is_closed_ = true) :
    wait_if dt c fl pred tm obs hsPostOk = some ⟨false, c, fl, []⟩ := by
  simp [wait_if, h]

/-- Closed-form value of `wait_if` on the predicate-false early-return path. -/
lemma wait_if_predFalse_eq (dt : Nat) (c : wait_counter) (fl : wait_flags)
    (tm : Nat) (obs : List LoopObs) (hsPostOk : Bool)
    (hcl : fl.is_closed_ = false) :
    wait_if dt c fl false tm obs hsPostOk =
      some ⟨true, { c with waiting_ := decrementWaiting (c.waiting_ + 1) },
            { fl with is_waiting_ := false },
            [Event.ctrlLock, Event.ctrlUnlock]⟩ := by
  simp [wait_if, hcl]

/-- Closed-form value of `wait_if` on the blocking path, given the loop's
outcome. -/
lemma wait_if_block_eq (dt : Nat) (c : wait_counter) (fl : wait_flags)
    (tm : Nat) (obs : List LoopObs) (hsPostOk : Bool) (r : Bool)
    (ltr : List Event) (hcl : fl.is_closed_ = false)
    (hw : waitLoop dt tm obs = some (r, ltr)) :
    wait_if dt c fl true tm obs hsPostOk =
      some ⟨hsPostOk && r,
            ⟨decrementWaiting (c.waiting_ + 1), c.waiting_ + 1⟩,
            ⟨false, false, false⟩,
            Event.ctrlLock :: Event.ctrlUnlock :: Event.mtxUnlock :: ltr
              ++ [Event.hsPost 1 hsPostOk, Event.mtxLock]⟩ := by
  simp [wait_if, hcl, hw]

/-- If `wait_if` on the blocking path returned a value, the loop completed. -/
lemma wait_if_block_inv (dt : Nat) (c : wait_counter) (fl : wait_flags)
    (tm : Nat) (obs : List LoopObs) (hsPostOk : Bool) (out : WaitIfOut)
    (hcl : fl.is_closed_ = false)
    (h : wait_if dt c fl true tm obs hsPostOk = some out) :
    ∃ r ltr, waitLoop dt tm obs = some (r, ltr) := by
  rcases hq : waitLoop dt tm obs with _ | ⟨r, ltr⟩
  · rw [wait_if, hcl] at h
    simp only [Bool.false_eq_true, if_false, Bool.not_true] at h
    rw [hq] at h
    exact absurd h (by simp)
  · exact ⟨r, ltr, rfl⟩

/-! ## Claims -/

/-- C5: if `is_closed` is true at entry, `wait_if` returns `false` immediately:
no `sema_wait`, no `handshake_post`, no mutex transition (empty trace), the
counters and flags are returned untouched, and in particular `waiting_`,
`is_waiting_` and `counter_` are not written. -/
theorem wait_if_closed (dt : Nat) (c : wait_counter) (fl : wait_flags)
    (pred : Bool) (tm : Nat) (obs : List LoopObs) (hsPostOk : Bool)
    (h : fl.is_closed_ = true) :
    wait_if dt c fl pred tm obs hsPostOk = some ⟨false, c, fl, []⟩ :=
  wait_if_closed_eq dt c fl pred tm obs hsPostOk h

/-- Witness for C5 at a concrete closed state. -/
theorem wait_if_closed_witness :
    (wait_flags.mk false true false).is_closed_ = true ∧
    wait_if 100 ⟨2, 0⟩ ⟨false, true, false⟩ true 5 [] true =
      some ⟨false, ⟨2, 0⟩, ⟨false, true, false⟩, []⟩ :=
  ⟨rfl, wait_if_closed 100 ⟨2, 0⟩ ⟨false, true, false⟩ true 5 [] true rfl⟩

/-- C6: if not closed and the predicate evaluates to false under the shared
lock, `wait_if` returns `true` with no `sema_wait` and no mutex transition
(the trace holds only the shared-lock acquisition and release), the cleanup
has run: `waiting_` is back to its entry value and `is_waiting_` is
cleared. -/
theorem wait_if_pred_false (dt : Nat) (c : wait_counter) (fl : wait_flags)
    (tm : Nat) (obs : List LoopObs) (hsPostOk : Bool)
    (hcl : fl.is_closed_ = false) (hw : 0 ≤ c.waiting_) :
    wait_if dt c fl false tm obs hsPostOk =
      some ⟨true, c, { fl with is_waiting_ := false },
            [Event.ctrlLock, Event.ctrlUnlock]⟩ := by
  rw [wait_if_predFalse_eq dt c fl tm obs hsPostOk hcl]
  have hd : decrementWaiting (c.waiting_ + 1) = c.waiting_ := by
    simp only [decrementWaiting]
    split <;> omega
  rw [hd]

/-- Witness for C6 at a concrete open state with one prior waiter. -/
theorem wait_if_pred_false_witness :
    ((wait_flags.mk true false false).is_closed_ = false ∧
      (0 : Int) ≤ (wait_counter.mk 1 0).waiting_) ∧
    wait_if 100 ⟨1, 0⟩ ⟨true, false, false⟩ false 5 [] true =
      some ⟨true, ⟨1, 0⟩, ⟨false, false, false⟩,
            [Event.ctrlLock, Event.ctrlUnlock]⟩ :=
  ⟨⟨rfl, by decide⟩,
    wait_if_pred_false 100 ⟨1, 0⟩ ⟨true, false, false⟩ 5 [] true rfl (by decide)⟩

/-- C7: whenever `wait_if` registered (not closed at entry) and returned, the
increment of `waiting_` has been matched by exactly one application of the
compare-and-swap decrement on that exit path — the final `waiting_` is
`decrementWaiting (entry value + 1)`, so it is back to the entry value
whenever that was nonnegative — and `decrementWaiting` only decrements while
the observed value is strictly positive, hence never drives a nonnegative
`waiting_` below zero. -/
theorem wait_if_waiting_balance (dt : Nat) (c : wait_counter)
    (fl : wait_flags) (pred : Bool) (tm : Nat) (obs : List LoopObs)
    (hsPostOk : Bool) (out : WaitIfOut) (hcl : fl.is_closed_ = false)
    (h : wait_if dt c fl pred tm obs hsPostOk = some out) :
    (out.counter.waiting_ = decrementWaiting (c.waiting_ + 1) ∧
      out.flags.is_waiting_ = false) ∧
    (0 ≤ c.waiting_ → out.counter.waiting_ = c.waiting_) ∧
    (∀ w : Int, ¬ 0 < w → decrementWaiting w = w) ∧
    (∀ w : Int, 0 ≤ w → 0 ≤ decrementWaiting w) := by
  have hdec : out.counter.waiting_ = decrementWaiting (c.waiting_ + 1) ∧
      out.flags.is_waiting_ = false := by
    cases pred with
    | false =>
      rw [wait_if_predFalse_eq dt c fl tm obs hsPostOk hcl] at h
      rcases Option.some.inj h with h'
      simp [← h']
    | true =>
      obtain ⟨r, ltr, hq⟩ :=
        wait_if_block_inv dt c fl tm obs hsPostOk out hcl h
      rw [wait_if_block_eq dt c fl tm obs hsPostOk r ltr hcl hq] at h
      rcases Option.some.inj h with h'
      simp [← h']
  refine ⟨hdec, ?_, ?_, ?_⟩
  · intro hw
    rw [hdec.1]
    simp only [decrementWaiting]
    split <;> omega
  · intro w hw
    simp only [decrementWaiting]
    split <;> omega
  · intro w hw
    simp only [decrementWaiting]
    split <;> omega

/-- Witness for C7: a concrete blocking run with one waiter registered. -/
theorem wait_if_waiting_balance_witness :
    ((wait_flags.mk false false false).is_closed_ = false ∧
      wait_if 7 ⟨1, 0⟩ ⟨false, false, false⟩ true 5
          [⟨true, false, false, true, false⟩] true =
        some ⟨true, ⟨1, 2⟩, ⟨false, false, false⟩,
              [Event.ctrlLock, Event.ctrlUnlock, Event.mtxUnlock,
               Event.semaWait 5 true, Event.hsPost 1 true, Event.mtxLock]⟩) ∧
    ((WaitIfOut.mk true ⟨1, 2⟩ ⟨false, false, false⟩
        [Event.ctrlLock, Event.ctrlUnlock, Event.mtxUnlock,
         Event.semaWait 5 true, Event.hsPost 1 true, Event.mtxLock]).counter.waiting_ =
          decrementWaiting ((wait_counter.mk 1 0).waiting_ + 1) ∧
      (WaitIfOut.mk true ⟨1, 2⟩ ⟨false, false, false⟩
        [Event.ctrlLock, Event.ctrlUnlock, Event.mtxUnlock,
         Event.semaWait 5 true, Event.hsPost 1 true, Event.mtxLock]).flags.is_waiting_ = false) ∧
    ((0 : Int) ≤ (wait_counter.mk 1 0).waiting_ →
      (WaitIfOut.mk true ⟨1, 2⟩ ⟨false, false, false⟩
        [Event.ctrlLock, Event.ctrlUnlock, Event.mtxUnlock,
         Event.semaWait 5 true, Event.hsPost 1 true, Event.mtxLock]).counter.waiting_ =
          (wait_counter.mk 1 0).waiting_) ∧
    (∀ w : Int, ¬ 0 < w → decrementWaiting w = w) ∧
    (∀ w : Int, 0 ≤ w → 0 ≤ decrementWaiting w) :=
  ⟨⟨rfl, by decide⟩,
    wait_if_waiting_balance 7 ⟨1, 0⟩ ⟨false, false, false⟩ true 5
      [⟨true, false, false, true, false⟩] true
      ⟨true, ⟨1, 2⟩, ⟨false, false, false⟩,
       [Event.ctrlLock, Event.ctrlUnlock, Event.mtxUnlock,
        Event.semaWait 5 true, Event.hsPost 1 true, Event.mtxLock]⟩
      rfl (by decide)⟩

/-- C2: on every return of `wait_if` that reached the blocking phase (not
closed at entry, predicate true), the trace holds exactly one
`handshake_post` invocation, namely `handshake_post(1)`, and the returned
boolean is the conjunction of the `handshake_post` result and the blocking
loop's wait outcome. -/
theorem wait_if_handshake (dt : Nat) (c : wait_counter) (fl : wait_flags)
    (tm : Nat) (obs : List LoopObs) (hsPostOk : Bool) (out : WaitIfOut)
    (hcl : fl.is_closed_ = false)
    (h : wait_if dt c fl true tm obs hsPostOk = some out) :
    out.trace.filter Event.isHsPost = [Event.hsPost 1 hsPostOk] ∧
    ∃ r ltr, waitLoop dt tm obs = some (r, ltr) ∧
      out.ret = (hsPostOk && r) := by
  obtain ⟨r, ltr, hq⟩ := wait_if_block_inv dt c fl tm obs hsPostOk out hcl h
  rw [wait_if_block_eq dt c fl tm obs hsPostOk r ltr hcl hq] at h
  have h' := Option.some.inj h
  subst h'
  have hltr : ltr.filter Event.isHsPost = [] :=
    List.filter_eq_nil_iff.mpr fun e he => by
      simp [isSemaWait_not_hsPost e (waitLoop_events dt tm obs r ltr hq e he)]
  refine ⟨?_, r, ltr, hq, rfl⟩
  simp [List.filter_cons, List.filter_append, hltr, Event.isHsPost]

/-- Witness for C2: a concrete blocking run whose `sema_wait` timed out. -/
theorem wait_if_handshake_witness :
    ((wait_flags.mk true false false).is_closed_ = false ∧
      wait_if 7 ⟨2, 5⟩ ⟨true, false, false⟩ true 3
          [⟨true, false, false, false, false⟩] true =
        some ⟨false, ⟨2, 3⟩, ⟨false, false, false⟩,
              [Event.ctrlLock, Event.ctrlUnlock, Event.mtxUnlock,
               Event.semaWait 3 false, Event.hsPost 1 true, Event.mtxLock]⟩) ∧
    ((WaitIfOut.mk false ⟨2, 3⟩ ⟨false, false, false⟩
        [Event.ctrlLock, Event.ctrlUnlock, Event.mtxUnlock,
         Event.semaWait 3 false, Event.hsPost 1 true,
         Event.mtxLock]).trace.filter Event.isHsPost = [Event.hsPost 1 true] ∧
      ∃ r ltr, waitLoop 7 3 [⟨true, false, false, false, false⟩] = some (r, ltr) ∧
        (WaitIfOut.mk false ⟨2, 3⟩ ⟨false, false, false⟩
          [Event.ctrlLock, Event.ctrlUnlock, Event.mtxUnlock,
           Event.semaWait 3 false, Event.hsPost 1 true,
           Event.mtxLock]).ret = (true && r)) :=
  ⟨⟨rfl, by decide⟩,
    wait_if_handshake 7 ⟨2, 5⟩ ⟨true, false, false⟩ 3
      [⟨true, false, false, false, false⟩] true
      ⟨false, ⟨2, 3⟩, ⟨false, false, false⟩,
       [Event.ctrlLock, Event.ctrlUnlock, Event.mtxUnlock,
        Event.semaWait 3 false, Event.hsPost 1 true, Event.mtxLock]⟩
      rfl (by decide)⟩

/-- C4: when an iteration of `wait_if`'s blocking loop observes
`need_dest_` set while still waiting and not closed, the loop performs
exactly one `sema_wait(default_timeout)` in that iteration and exits with
outcome failure; consequently a `wait_if` whose loop hits this branch
returns `false` — even when that drain `sema_wait` acquired a token — and
its trace holds exactly that one `sema_wait`. -/
theorem wait_if_teardown (dt tm : Nat) (o : LoopObs) (rest : List LoopObs)
    (hw : o.isWaiting = true) (hc : o.isClosed = false)
    (hd : o.needDest = true) :
    waitLoop dt tm (o :: rest) =
      some (false, [Event.semaWait dt o.semaOk]) ∧
    ∀ (c : wait_counter) (fl : wait_flags) (hsPostOk : Bool)
      (out : WaitIfOut), fl.is_closed_ = false →
      wait_if dt c fl true tm (o :: rest) hsPostOk = some out →
      out.ret = false ∧
      out.trace.filter Event.isSemaWait = [Event.semaWait dt o.semaOk] := by
  have hloop : waitLoop dt tm (o :: rest) =
      some (false, [Event.semaWait dt o.semaOk]) := by
    simp [waitLoop, hw, hc, hd]
  refine ⟨hloop, ?_⟩
  intro c fl hsPostOk out hcl h
  rw [wait_if_block_eq dt c fl tm (o :: rest) hsPostOk false
      [Event.semaWait dt o.semaOk] hcl hloop] at h
  have h' := Option.some.inj h
  subst h'
  constructor
  · simp
  · simp [List.filter_cons, List.filter_append, Event.isSemaWait,
          Event.isHsPost]

/-- Witness for C4: the teardown flag is observed on the first iteration and
the drain `sema_wait` even acquires a token, yet `wait_if` returns false. -/
theorem wait_if_teardown_witness :
    ((LoopObs.mk true false true true false).isWaiting = true ∧
      (LoopObs.mk true false true true false).isClosed = false ∧
      (LoopObs.mk true false true true false).needDest = true) ∧
    (waitLoop 9 4 [⟨true, false, true, true, false⟩] =
      some (false, [Event.semaWait 9 true]) ∧
    ∀ (c : wait_counter) (fl : wait_flags) (hsPostOk : Bool)
      (out : WaitIfOut), fl.is_closed_ = false →
      wait_if 9 c fl true 4 [⟨true, false, true, true, false⟩] hsPostOk =
        some out →
      out.ret = false ∧
      out.trace.filter Event.isSemaWait = [Event.semaWait 9 true]) :=
  ⟨⟨rfl, rfl, rfl⟩,
    wait_if_teardown 9 4 ⟨true, false, true, true, false⟩ [] rfl rfl rfl⟩

/-- C10: the mutex discipline of `wait_if`.  On the closed fast path and on
the predicate-false early return the trace holds no `mtx` transition at all;
on the blocking path the trace is the shared-lock section followed by exactly
one `mtx` unlock, then only `sema_wait` events, then the handshake post and
exactly one final `mtx` re-lock — so `mtx` is locked again when `wait_if`
returns on every path. -/
theorem wait_if_mtx_discipline (dt : Nat) (c : wait_counter)
    (fl : wait_flags) (pred : Bool) (tm : Nat) (obs : List LoopObs)
    (hsPostOk : Bool) (out : WaitIfOut)
    (h : wait_if dt c fl pred tm obs hsPostOk = some out) :
    (fl.is_closed_ = true → out.trace.filter Event.isMtx = []) ∧
    (fl.is_closed_ = false → pred = false →
      out.trace.filter Event.isMtx = []) ∧
    (fl.is_closed_ = false → pred = true →
      ∃ mid, out.trace = Event.ctrlLock :: Event.ctrlUnlock ::
          Event.mtxUnlock :: mid
            ++ [Event.hsPost 1 hsPostOk, Event.mtxLock] ∧
        (∀ e ∈ mid, e.isMtx = false) ∧
        out.trace.filter Event.isMtx = [Event.mtxUnlock, Event.mtxLock]) := by
  refine ⟨?_, ?_, ?_⟩
  · intro hcl
    rw [wait_if_closed_eq dt c fl pred tm obs hsPostOk hcl] at h
    have h' := Option.some.inj h
    subst h'
    simp
  · intro hcl hp
    subst hp
    rw [wait_if_predFalse_eq dt c fl tm obs hsPostOk hcl] at h
    have h' := Option.some.inj h
    subst h'
    simp [Event.isMtx]
  · intro hcl hp
    subst hp
    obtain ⟨r, ltr, hq⟩ := wait_if_block_inv dt c fl tm obs hsPostOk out hcl h
    rw [wait_if_block_eq dt c fl tm obs hsPostOk r ltr hcl hq] at h
    have h' := Option.some.inj h
    subst h'
    refine ⟨ltr, rfl, ?_, ?_⟩
    · intro e he
      exact isSemaWait_not_mtx e (waitLoop_events dt tm obs r ltr hq e he)
    · have hltr : ltr.filter Event.isMtx = [] :=
        List.filter_eq_nil_iff.mpr fun e he => by
          simp [isSemaWait_not_mtx e (waitLoop_events dt tm obs r ltr hq e he)]
      simp [List.filter_cons, List.filter_append, hltr, Event.isMtx]

/-- Witness for C10: a concrete two-iteration blocking run (forced to drain
by teardown on the second iteration). -/
theorem wait_if_mtx_discipline_witness :
    (wait_if 11 ⟨0, 0⟩ ⟨false, false, false⟩ true 2
        [⟨true, false, false, true, true⟩, ⟨true, false, true, false, false⟩]
        true =
      some ⟨false, ⟨0, 1⟩, ⟨false, false, false⟩,
            [Event.ctrlLock, Event.ctrlUnlock, Event.mtxUnlock,
             Event.semaWait 2 true, Event.semaWait 11 false,
             Event.hsPost 1 true, Event.mtxLock]⟩) ∧
    (((wait_flags.mk false false false).is_closed_ = true →
      (WaitIfOut.mk false ⟨0, 1⟩ ⟨false, false, false⟩
        [Event.ctrlLock, Event.ctrlUnlock, Event.mtxUnlock,
         Event.semaWait 2 true, Event.semaWait 11 false,
         Event.hsPost 1 true, Event.mtxLock]).trace.filter Event.isMtx = []) ∧
    ((wait_flags.mk false false false).is_closed_ = false → true = false →
      (WaitIfOut.mk false ⟨0, 1⟩ ⟨false, false, false⟩
        [Event.ctrlLock, Event.ctrlUnlock, Event.mtxUnlock,
         Event.semaWait 2 true, Event.semaWait 11 false,
         Event.hsPost 1 true, Event.mtxLock]).trace.filter Event.isMtx = []) ∧
    ((wait_flags.mk false false false).is_closed_ = false → true = true →
      ∃ mid, (WaitIfOut.mk false ⟨0, 1⟩ ⟨false, false, false⟩
          [Event.ctrlLock, Event.ctrlUnlock, Event.mtxUnlock,
           Event.semaWait 2 true, Event.semaWait 11 false,
           Event.hsPost 1 true, Event.mtxLock]).trace =
            Event.ctrlLock :: Event.ctrlUnlock :: Event.mtxUnlock :: mid
              ++ [Event.hsPost 1 true, Event.mtxLock] ∧
        (∀ e ∈ mid, e.isMtx = false) ∧
        (WaitIfOut.mk false ⟨0, 1⟩ ⟨false, false, false⟩
          [Event.ctrlLock, Event.ctrlUnlock, Event.mtxUnlock,
           Event.semaWait 2 true, Event.semaWait 11 false,
           Event.hsPost 1 true, Event.mtxLock]).trace.filter Event.isMtx =
            [Event.mtxUnlock, Event.mtxLock])) :=
  ⟨by decide,
    wait_if_mtx_discipline 11 ⟨0, 0⟩ ⟨false, false, false⟩ true 2
      [⟨true, false, false, true, true⟩, ⟨true, false, true, false, false⟩]
      true
      ⟨false, ⟨0, 1⟩, ⟨false, false, false⟩,
       [Event.ctrlLock, Event.ctrlUnlock, Event.mtxUnlock,
        Event.semaWait 2 true, Event.semaWait 11 false,
        Event.hsPost 1 true, Event.mtxLock]⟩
      (by decide)⟩

/-- C8: called with `waiting_ == 0`, each of `notify`, `broadcast` and
`quit_waiting` returns `true` with an empty trace — no shared-lock
acquisition, no `sema_post`, no handshake operation; `notify`'s check is its
very first action, before any lock.  (`quit_waiting` still performs its two
unconditional flag writes, visible in the returned flags.) -/
theorem zero_waiters_noop (dt : Nat) (c : wait_counter) (fl : wait_flags)
    (drain : List Bool) (p q u : Bool) (hs : Nat → Bool)
    (hw : c.waiting_ = 0) :
    notify dt c drain p q = some (true, c, []) ∧
    broadcast dt c drain p hs = some (true, c, []) ∧
    quit_waiting dt c fl drain p u =
      some (true, c, { fl with is_waiting_ := false, need_dest_ := true },
            []) := by
  refine ⟨?_, ?_, ?_⟩
  · simp [notify, hw]
  · simp [broadcast, hw]
  · simp only [quit_waiting, hw]
    split <;> simp

/-- Witness for C8 with two registered-then-gone waiters' stale snapshot. -/
theorem zero_waiters_noop_witness :
    (wait_counter.mk 0 2).waiting_ = 0 ∧
    (notify 10 ⟨0, 2⟩ [true, false] true false = some (true, ⟨0, 2⟩, []) ∧
      broadcast 10 ⟨0, 2⟩ [true, false] true (fun _ => false) =
        some (true, ⟨0, 2⟩, []) ∧
      quit_waiting 10 ⟨0, 2⟩ ⟨true, false, false⟩ [true, false] true false =
        some (true, ⟨0, 2⟩, ⟨false, false, true⟩, [])) :=
  ⟨rfl, zero_waiters_noop 10 ⟨0, 2⟩ ⟨true, false, false⟩ [true, false]
    true false false (fun _ => false) rfl⟩

/-- C3 (amended): `quit_waiting` reaching its locked section (a waiter was
registered, `waiting_ ≠ 0`) with `counter_ > 0` posts `counter_` tokens in
one `sema_post` call, decrements `counter_` exactly once (not once per
waiter), and — provided that `sema_post` succeeded — performs exactly one
handshake wait bounded by `default_timeout` (when the post fails, the
`ret && handshake_wait(default_timeout)` short-circuit performs none: see
the counterexample); `waiting_` is left untouched, and on every path
`quit_waiting`'s returned flags carry the unconditional initial store
`need_dest_ = true`. -/
theorem quit_waiting_locked (dt : Nat) (c : wait_counter) (fl : wait_flags)
    (drain : List Bool) (q : Bool) (dtr : List Event)
    (hiw : fl.is_waiting_ = true) (hw : c.waiting_ ≠ 0)
    (hc : 0 < c.counter_) (hd : clear_handshake drain = some dtr) :
    quit_waiting dt c fl drain true q =
      some (q, { c with counter_ := c.counter_ - 1 },
            { fl with is_waiting_ := false, need_dest_ := true },
            Event.ctrlLock :: dtr
              ++ [Event.semaPost c.counter_ true, Event.hsWait dt q,
                  Event.ctrlUnlock]) ∧
    ∀ (c0 : wait_counter) (fl0 : wait_flags) (drain0 : List Bool)
      (p0 q0 r : Bool) (c1 : wait_counter) (fl1 : wait_flags)
      (tr : List Event),
      quit_waiting dt c0 fl0 drain0 p0 q0 = some (r, c1, fl1, tr) →
      fl1.need_dest_ = true := by
  constructor
  · simp [quit_waiting, hiw, hw, hc, hd]
  · intro c0 fl0 drain0 p0 q0 r c1 fl1 tr h
    simp only [quit_waiting] at h
    split at h
    · simp only [Option.some_inj, Prod.mk.injEq] at h
      obtain ⟨-, -, h2, -⟩ := h
      rw [← h2]
    · split at h
      · simp only [Option.some_inj, Prod.mk.injEq] at h
        obtain ⟨-, -, h2, -⟩ := h
        rw [← h2]
      · rcases hq : clear_handshake drain0 with _ | dtr0
        · rw [hq] at h
          exact absurd h (by simp)
        · simp only [hq] at h
          split at h
          · simp only [Option.some_inj, Prod.mk.injEq] at h
            obtain ⟨-, -, h2, -⟩ := h
            rw [← h2]
          · simp only [Option.some_inj, Prod.mk.injEq] at h
            obtain ⟨-, -, h2, -⟩ := h
            rw [← h2]

/-- Witness for C3: one registered waiter, stale snapshot 2. -/
theorem quit_waiting_locked_witness :
    ((wait_flags.mk true false false).is_waiting_ = true ∧
      (wait_counter.mk 1 2).waiting_ ≠ 0 ∧
      (0 : Int) < (wait_counter.mk 1 2).counter_ ∧
      clear_handshake [true, false] =
        some [Event.hsWait 0 true, Event.hsWait 0 false]) ∧
    (quit_waiting 42 ⟨1, 2⟩ ⟨true, false, false⟩ [true, false] true true =
      some (true, ⟨1, 1⟩, ⟨false, false, true⟩,
            Event.ctrlLock :: [Event.hsWait 0 true, Event.hsWait 0 false]
              ++ [Event.semaPost 2 true, Event.hsWait 42 true,
                  Event.ctrlUnlock]) ∧
    ∀ (c0 : wait_counter) (fl0 : wait_flags) (drain0 : List Bool)
      (p0 q0 r : Bool) (c1 : wait_counter) (fl1 : wait_flags)
      (tr : List Event),
      quit_waiting 42 c0 fl0 drain0 p0 q0 = some (r, c1, fl1, tr) →
      fl1.need_dest_ = true) :=
  ⟨⟨rfl, by decide, by decide, rfl⟩,
    quit_waiting_locked 42 ⟨1, 2⟩ ⟨true, false, false⟩ [true, false] true
      [Event.hsWait 0 true, Event.hsWait 0 false]
      rfl (by decide) (by decide) rfl⟩

/-- C3 counterexample: the locked section is reached (`is_waiting_` set,
`waiting_ = 1 ≠ 0`, snapshot `counter_ = 2 > 0`) but `sema_post` fails, and
`quit_waiting` performs no `handshake_wait(default_timeout)` at all —
refuting the original claim's unconditional "exactly one handshake wait". -/
theorem quit_waiting_locked_cex :
    quit_waiting 42 ⟨1, 2⟩ ⟨true, false, false⟩ [false] false true =
      some (false, ⟨1, 1⟩, ⟨false, false, true⟩,
            [Event.ctrlLock, Event.hsWait 0 false,
             Event.semaPost 2 false, Event.ctrlUnlock]) ∧
    [Event.ctrlLock, Event.hsWait 0 false, Event.semaPost 2 false,
      Event.ctrlUnlock].countP (Event.isHsWaitTm 42) = 0 := by
  constructor
  · decide
  · decide

/-- Every event `clear_handshake` emits is a non-blocking `handshake_wait`. -/
lemma clear_handshake_events :
    ∀ (drain : List Bool) (tr : List Event),
      clear_handshake drain = some tr →
      ∀ e ∈ tr, ∃ b, e = Event.hsWait 0 b := by
  intro drain
  induction drain with
  | nil => intro tr h; simp [clear_handshake] at h
  | cons b rest ih =>
    intro tr h
    simp only [clear_handshake] at h
    split at h
    · rcases hq : clear_handshake rest with _ | tr'
      · rw [hq] at h
        exact absurd h (by simp)
      · rw [hq] at h
        simp only [Option.some_inj] at h
        subst h
        intro e he
        rcases List.mem_cons.mp he with he | he
        · exact ⟨true, he⟩
        · exact ih tr' hq e he
    · simp only [Option.some_inj] at h
      subst h
      intro e he
      simp at he
      exact ⟨false, he⟩

/-- Peeling one element off an `all` over a shifted `List.range`. -/
lemma range_succ_all (g : Nat → Bool) (m i0 : Nat) :
    (List.range (m + 1)).all (fun j => g (i0 + j)) =
      (g i0 && (List.range m).all (fun j => g (i0 + 1 + j))) := by
  rw [List.range_succ_eq_map, List.all_cons, List.all_map]
  have hfun : ((fun j => g (i0 + j)) ∘ Nat.succ) =
      (fun j => g (i0 + 1 + j)) := by
    funext j
    simp only [Function.comp]
    congr 1
    omega
  rw [hfun]
  simp

/-- Peeling one element off the `handshake_wait` event map over a shifted
`List.range`. -/
lemma range_succ_map_hsWait (tm : Nat) (hs : Nat → Bool) (m i0 : Nat) :
    (List.range (m + 1)).map (fun j => Event.hsWait tm (hs (i0 + j))) =
      Event.hsWait tm (hs i0) :: (List.range m).map
        (fun j => Event.hsWait tm (hs (i0 + 1 + j))) := by
  rw [List.range_succ_eq_map, List.map_cons, List.map_map]
  have hfun : ((fun j => Event.hsWait tm (hs (i0 + j))) ∘ Nat.succ) =
      (fun j => Event.hsWait tm (hs (i0 + 1 + j))) := by
    funext j
    simp only [Function.comp]
    congr 2
    omega
  rw [hfun]
  simp

/-- Closed form of `broadcast`'s acknowledgment loop on the all-succeed path:
starting from `counter_ = n > 0` with `ret = true`, if none of the first
`n - 1` handshake waits fails then the short-circuit never triggers, the
loop performs all `n` handshake waits, conjoins their results, and drives
`counter_` down to `0`. -/
lemma bcastLoop_all_eq (tm : Nat) (hs : Nat → Bool) :
    ∀ (n : Nat) (i0 : Nat) (c : Int), c = (n : Int) → 0 < n →
      (∀ j, j + 1 < n → hs (i0 + j) = true) →
      bcastLoop tm hs i0 c true =
        ((List.range n).all (fun j => hs (i0 + j)), 0,
         (List.range n).map (fun j => Event.hsWait tm (hs (i0 + j)))) := by
  intro n
  induction n with
  | zero => intro i0 c hc hn _; exact absurd hn (by omega)
  | succ m ih =>
    intro i0 c hc _ hfirst
    subst hc
    rw [bcastLoop]
    by_cases hm : 0 < m
    · have h1 : (0 : Int) < ((m + 1 : Nat) : Int) - 1 := by push_cast; omega
      rw [dif_pos h1]
      have hc1 : ((m + 1 : Nat) : Int) - 1 = ((m : Nat) : Int) := by
        push_cast; ring
      have hh0 : hs i0 = true := by simpa using hfirst 0 (by omega)
      have hfirst1 : ∀ j, j + 1 < m → hs (i0 + 1 + j) = true := by
        intro j hj
        have h2 := hfirst (j + 1) (by omega)
        have harg : i0 + (j + 1) = i0 + 1 + j := by omega
        rwa [harg] at h2
      rw [hc1, range_succ_all hs m i0, range_succ_map_hsWait tm hs m i0, hh0]
      simp only [Bool.and_self]
      rw [ih (i0 + 1) ((m : Nat) : Int) rfl hm hfirst1]
      simp
    · have hm0 : m = 0 := by omega
      subst hm0
      have h1 : ¬ (0 : Int) < ((0 + 1 : Nat) : Int) - 1 := by norm_num
      rw [dif_neg h1]
      simp [List.range_succ]

/-- Closed form of `broadcast`'s acknowledgment loop when `ret` is already
`false` (failed `sema_post`): the `&&` short-circuit performs no handshake
wait at all; `counter_` is still driven to `0`. -/
lemma bcastLoop_false_eq (tm : Nat) (hs : Nat → Bool) :
    ∀ (n : Nat) (i0 : Nat) (c : Int), c = (n : Int) → 0 < n →
      bcastLoop tm hs i0 c false = (false, 0, []) := by
  intro n
  induction n with
  | zero => intro i0 c hc hn; exact absurd hn (by omega)
  | succ m ih =>
    intro i0 c hc _
    subst hc
    rw [bcastLoop]
    by_cases hm : 0 < m
    · have h1 : (0 : Int) < ((m + 1 : Nat) : Int) - 1 := by push_cast; omega
      rw [dif_pos h1]
      have hc1 : ((m + 1 : Nat) : Int) - 1 = ((m : Nat) : Int) := by
        push_cast; ring
      rw [hc1]
      simp only [Bool.false_and]
      rw [ih (i0 + 1) ((m : Nat) : Int) rfl hm]
      simp
    · have hm0 : m = 0 := by omega
      subst hm0
      have h1 : ¬ (0 : Int) < ((0 + 1 : Nat) : Int) - 1 := by norm_num
      rw [dif_neg h1]
      simp

/-- General closed form of `broadcast`'s acknowledgment loop: for every
initial `ret` and environment, `counter_` ends at `0`, the result is the
conjunction of `ret` with the `n` environment answers, and every emitted
event is a `handshake_wait tm`. -/
lemma bcastLoop_general (tm : Nat) (hs : Nat → Bool) :
    ∀ (n : Nat) (i0 : Nat) (c : Int) (ret : Bool), c = (n : Int) → 0 < n →
      ∃ tr, bcastLoop tm hs i0 c ret =
          (ret && (List.range n).all (fun j => hs (i0 + j)), 0, tr) ∧
        ∀ e ∈ tr, ∃ b, e = Event.hsWait tm b := by
  intro n
  induction n with
  | zero => intro i0 c ret hc hn; exact absurd hn (by omega)
  | succ m ih =>
    intro i0 c ret hc _
    subst hc
    rw [bcastLoop]
    by_cases hm : 0 < m
    · have h1 : (0 : Int) < ((m + 1 : Nat) : Int) - 1 := by push_cast; omega
      rw [dif_pos h1]
      have hc1 : ((m + 1 : Nat) : Int) - 1 = ((m : Nat) : Int) := by
        push_cast; ring
      rw [hc1]
      obtain ⟨tr, heq, htr⟩ := ih (i0 + 1) ((m : Nat) : Int) (ret && hs i0)
        rfl hm
      refine ⟨(if ret then [Event.hsWait tm (hs i0)] else []) ++ tr, ?_, ?_⟩
      · rw [heq, range_succ_all hs m i0]
        simp [Bool.and_assoc]
      · intro e he
        rcases List.mem_append.mp he with he | he
        · rcases Bool.eq_false_or_eq_true ret with hr | hr
          · rw [hr] at he
            simp at he
            exact ⟨hs i0, he⟩
          · rw [hr] at he
            simp at he
        · exact htr e he
    · have hm0 : m = 0 := by omega
      subst hm0
      have h1 : ¬ (0 : Int) < ((0 + 1 : Nat) : Int) - 1 := by norm_num
      rw [dif_neg h1]
      refine ⟨if ret then [Event.hsWait tm (hs i0)] else [], ?_, ?_⟩
      · simp [List.range_succ]
      · intro e he
        rcases Bool.eq_false_or_eq_true ret with hr | hr
        · rw [hr] at he
          simp at he
          exact ⟨hs i0, he⟩
        · rw [hr] at he
          simp at he

/-- Closed form of `broadcast` past the fast path when `sema_post` succeeds
and none of the first `n - 1` handshake waits fails: the full fan-out of
`n` acknowledgment waits of `default_timeout / n` each. -/
lemma broadcast_success_eq (dt : Nat) (c : wait_counter) (drain : List Bool)
    (hs : Nat → Bool) (dtr : List Event) (n : Nat)
    (hw : c.waiting_ ≠ 0) (hc : c.counter_ = (n : Int)) (hn : 0 < n)
    (hd : clear_handshake drain = some dtr)
    (hfirst : ∀ j, j + 1 < n → hs j = true) :
    broadcast dt c drain true hs =
      some ((List.range n).all (fun j => hs j), ⟨0, 0⟩,
            Event.ctrlLock :: dtr
              ++ Event.semaPost (n : Int) true
                :: (List.range n).map (fun j => Event.hsWait (dt / n) (hs j))
              ++ [Event.ctrlUnlock]) := by
  have hw' : ¬ (c.waiting_ == 0) = true := by simp [hw]
  have hcpos : 0 < c.counter_ := by rw [hc]; exact_mod_cast hn
  simp only [broadcast]
  rw [if_neg hw']
  simp only [hd]
  rw [if_pos hcpos]
  simp only [hc, Int.toNat_natCast]
  have hfirst0 : ∀ j, j + 1 < n → hs (0 + j) = true := by
    intro j hj
    rw [Nat.zero_add]
    exact hfirst j hj
  rw [bcastLoop_all_eq (dt / n) hs n 0 ((n : Int)) rfl hn hfirst0]
  simp [Nat.zero_add]

/-- Closed form of `broadcast` past the fast path when `sema_post` failed:
the short-circuit performs no handshake wait, yet `counter_` and `waiting_`
are still driven to `0`. -/
lemma broadcast_false_eq (dt : Nat) (c : wait_counter) (drain : List Bool)
    (hs : Nat → Bool) (dtr : List Event) (n : Nat)
    (hw : c.waiting_ ≠ 0) (hc : c.counter_ = (n : Int)) (hn : 0 < n)
    (hd : clear_handshake drain = some dtr) :
    broadcast dt c drain false hs =
      some (false, ⟨0, 0⟩,
            Event.ctrlLock :: dtr
              ++ [Event.semaPost (n : Int) false, Event.ctrlUnlock]) := by
  have hw' : ¬ (c.waiting_ == 0) = true := by simp [hw]
  have hcpos : 0 < c.counter_ := by rw [hc]; exact_mod_cast hn
  simp only [broadcast]
  rw [if_neg hw']
  simp only [hd]
  rw [if_pos hcpos]
  simp only [hc, Int.toNat_natCast]
  rw [bcastLoop_false_eq (dt / n) hs n 0 ((n : Int)) rfl hn]
  simp

/-- General closed form of `broadcast` past the fast path: one
`sema_post(counter_)`, then some list of acknowledgment events, every one of
which is a `handshake_wait (default_timeout / n)`; `counter_` and `waiting_`
end at `0`. -/
lemma broadcast_general (dt : Nat) (c : wait_counter) (drain : List Bool)
    (p : Bool) (hs : Nat → Bool) (dtr : List Event) (n : Nat)
    (hw : c.waiting_ ≠ 0) (hc : c.counter_ = (n : Int)) (hn : 0 < n)
    (hd : clear_handshake drain = some dtr) :
    ∃ ltr, broadcast dt c drain p hs =
        some (p && (List.range n).all (fun j => hs j), ⟨0, 0⟩,
              Event.ctrlLock :: dtr
                ++ Event.semaPost (n : Int) p :: ltr
                ++ [Event.ctrlUnlock]) ∧
      ∀ e ∈ ltr, ∃ b, e = Event.hsWait (dt / n) b := by
  have hw' : ¬ (c.waiting_ == 0) = true := by simp [hw]
  have hcpos : 0 < c.counter_ := by rw [hc]; exact_mod_cast hn
  simp only [broadcast]
  rw [if_neg hw']
  simp only [hd]
  rw [if_pos hcpos]
  simp only [hc, Int.toNat_natCast]
  obtain ⟨tr, heq, htr⟩ := bcastLoop_general (dt / n) hs n 0 ((n : Int)) p
    rfl hn
  rw [heq]
  refine ⟨tr, ?_, htr⟩
  simp [Nat.zero_add]

/-- C1 (amended): for every snapshot `counter_ = n > 0` past the fast path,
`broadcast` posts `n` tokens in a single `sema_post` call — the only
`sema_post` of the whole trace — decrements `counter_` on each iteration
until it reaches `0`, and finally stores `0` into `waiting_`; and provided
that `sema_post` succeeded and none of the first `n - 1` handshake waits
failed, it performs exactly `n` handshake waits, one per registered waiter,
each bounded by the per-waiter timeout `default_timeout / n`.  (The original
unconditional "exactly n handshake waits" is refuted by the
`ret = ret && handshake_wait(tm)` short-circuit: see the counterexample,
where a failed `sema_post` yields zero handshake waits.) -/
theorem broadcast_fanout (dt : Nat) (c : wait_counter) (drain : List Bool)
    (hs : Nat → Bool) (dtr : List Event) (n : Nat)
    (hw : c.waiting_ ≠ 0) (hc : c.counter_ = (n : Int)) (hn : 0 < n)
    (hd : clear_handshake drain = some dtr)
    (hfirst : ∀ j, j + 1 < n → hs j = true) :
    broadcast dt c drain true hs =
      some ((List.range n).all (fun j => hs j), ⟨0, 0⟩,
            Event.ctrlLock :: dtr
              ++ Event.semaPost (n : Int) true
                :: (List.range n).map (fun j => Event.hsWait (dt / n) (hs j))
              ++ [Event.ctrlUnlock]) ∧
    (Event.ctrlLock :: dtr
        ++ Event.semaPost (n : Int) true
          :: (List.range n).map (fun j => Event.hsWait (dt / n) (hs j))
        ++ [Event.ctrlUnlock]).filter Event.isSemaPost =
      [Event.semaPost (n : Int) true] := by
  refine ⟨broadcast_success_eq dt c drain hs dtr n hw hc hn hd hfirst, ?_⟩
  have hdtr : dtr.filter Event.isSemaPost = [] :=
    List.filter_eq_nil_iff.mpr fun e he => by
      obtain ⟨b, rfl⟩ := clear_handshake_events drain dtr hd e he
      simp [Event.isSemaPost]
  have hmap : ((List.range n).map
      (fun j => Event.hsWait (dt / n) (hs j))).filter Event.isSemaPost = [] :=
    List.filter_eq_nil_iff.mpr fun e he => by
      obtain ⟨j, -, rfl⟩ := List.mem_map.mp he
      simp [Event.isSemaPost]
  simp [List.filter_cons, List.filter_append, hdtr, hmap, Event.isSemaPost]

/-- C1 counterexample: with a positive snapshot (`waiting_ = 3 ≠ 0`,
`counter_ = 3 > 0`) but a failed `sema_post`, `broadcast` performs zero
handshake waits at the per-waiter timeout `99 / 3 = 33` instead of the
claimed three (the `&&` short-circuit skips every `handshake_wait`). -/
theorem broadcast_fanout_cex :
    broadcast 99 ⟨3, 3⟩ [false] false (fun _ => true) =
      some (false, ⟨0, 0⟩,
            [Event.ctrlLock, Event.hsWait 0 false,
             Event.semaPost 3 false, Event.ctrlUnlock]) ∧
    [Event.ctrlLock, Event.hsWait 0 false, Event.semaPost 3 false,
      Event.ctrlUnlock].countP (Event.isHsWaitTm (99 / 3)) = 0 := by
  constructor
  · have h := broadcast_false_eq 99 ⟨3, 3⟩ [false] (fun _ => true)
      [Event.hsWait 0 false] 3 (by decide) (by decide) (by decide) rfl
    simpa using h
  · decide

/-- Witness for the amended C1: three waiters, budget 99, a successful
`sema_post` and all handshakes succeeding: exactly three acknowledgment
waits of 33 each. -/
theorem broadcast_fanout_witness :
    ((wait_counter.mk 3 3).waiting_ ≠ 0 ∧
      (wait_counter.mk 3 3).counter_ = ((3 : Nat) : Int) ∧
      0 < 3 ∧
      clear_handshake [false] = some [Event.hsWait 0 false] ∧
      (∀ j : Nat, j + 1 < 3 → (fun _ : Nat => true) j = true)) ∧
    (broadcast 99 ⟨3, 3⟩ [false] true (fun _ => true) =
      some ((List.range 3).all (fun _ => true), ⟨0, 0⟩,
            Event.ctrlLock :: [Event.hsWait 0 false]
              ++ Event.semaPost ((3 : Nat) : Int) true
                :: (List.range 3).map (fun _ => Event.hsWait (99 / 3) true)
              ++ [Event.ctrlUnlock]) ∧
    (Event.ctrlLock :: [Event.hsWait 0 false]
        ++ Event.semaPost ((3 : Nat) : Int) true
          :: (List.range 3).map (fun _ => Event.hsWait (99 / 3) true)
        ++ [Event.ctrlUnlock]).filter Event.isSemaPost =
      [Event.semaPost ((3 : Nat) : Int) true]) :=
  ⟨⟨by decide, by decide, by decide, rfl, fun _ _ => rfl⟩,
    broadcast_fanout 99 ⟨3, 3⟩ [false] (fun _ => true)
      [Event.hsWait 0 false] 3 (by decide) (by decide) (by decide) rfl
      (fun _ _ => rfl)⟩

/-- C9: for every snapshot `counter_ = n > 0` past the fast path, every
handshake wait `broadcast`'s acknowledgment loop performs — for any
`sema_post` outcome and any handshake results — uses the timeout
`default_timeout / n` in integer division with no minimum floor, and as
soon as `n > default_timeout` that quotient, hence every per-waiter
timeout, is exactly `0`. -/
theorem broadcast_timeout_div (dt : Nat) (c : wait_counter)
    (drain : List Bool) (p : Bool) (hs : Nat → Bool) (dtr : List Event)
    (n : Nat) (hw : c.waiting_ ≠ 0) (hc : c.counter_ = (n : Int)) (hn : 0 < n)
    (hd : clear_handshake drain = some dtr) :
    (∃ ltr, broadcast dt c drain p hs =
        some (p && (List.range n).all (fun j => hs j), ⟨0, 0⟩,
              Event.ctrlLock :: dtr
                ++ Event.semaPost (n : Int) p :: ltr
                ++ [Event.ctrlUnlock]) ∧
      ∀ e ∈ ltr, ∃ b, e = Event.hsWait (dt / n) b) ∧
    (dt < n → dt / n = 0) :=
  ⟨broadcast_general dt c drain p hs dtr n hw hc hn hd,
    fun h => Nat.div_eq_of_lt h⟩

/-- Witness for C9: 120 waiters against a timeout budget of 100 gives a
per-waiter timeout of exactly 0. -/
theorem broadcast_timeout_div_witness :
    ((wait_counter.mk 120 120).waiting_ ≠ 0 ∧
      (wait_counter.mk 120 120).counter_ = ((120 : Nat) : Int) ∧
      0 < 120 ∧
      clear_handshake [false] = some [Event.hsWait 0 false]) ∧
    ((∃ ltr, broadcast 100 ⟨120, 120⟩ [false] true (fun _ => false) =
        some (true && (List.range 120).all (fun _ => false), ⟨0, 0⟩,
              Event.ctrlLock :: [Event.hsWait 0 false]
                ++ Event.semaPost ((120 : Nat) : Int) true :: ltr
                ++ [Event.ctrlUnlock]) ∧
      ∀ e ∈ ltr, ∃ b, e = Event.hsWait (100 / 120) b) ∧
    (100 < 120 → 100 / 120 = 0)) :=
  ⟨⟨by decide, by decide, by decide, rfl⟩,
    broadcast_timeout_div 100 ⟨120, 120⟩ [false] true (fun _ => false)
      [Event.hsWait 0 false] 120 (by decide) (by decide) (by decide) rfl⟩

end waiter_helper
